import Mathlib

/-!
# Shallow embedding of `custom_components/bergfex/parser.py`

This development models the Bergfex HTML parser:

* `parse_bergfex_datetime` (parser.py lines 73-128),
* `get_text_for_labels` (lines 60-66),
* `parse_resort_page` (lines 135-210),
* the label table `LABELS` (lines 19-53).

Modelling conventions (stated once here, used throughout):

* A parsed HTML document (`BeautifulSoup`) is modelled as the flat list of
  its elements in document order.  `find` / `find_all` scan that list;
  `find_next_sibling` scans the elements after the found one.  An element's
  `.text` and `.string` are both modelled by its `text` field (the single
  text-node case, which is the shape the parser reads).
* Python `str` operations are re-implemented over `List Char`
  (`pyStrip`, `pyLower`, substring containment, `str.replace`, `str.split`),
  with `\d` and `\s` of the `re` module taken as their ASCII classes.
* `datetime` values are a record of calendar fields plus a timezone tag.
  The zone `ZoneInfo("Europe/Paris")` is modelled as a fixed-offset tag, so
  aware-datetime comparison and `timedelta` arithmetic act on the wall-clock
  timeline (`stampNat`); machine integers do not overflow (Python ints are
  unbounded) and `datetime` range/validity checks are explicit (`validDate`).
* Code that can raise an uncaught exception is embedded in
  `Except String _`; `.error` marks an exception escaping to the caller.
-/

namespace Bergfex

/-! ## Python string primitives -/

/-- ASCII whitespace, as stripped by `str.strip()` and matched by `\s`. -/
def isSpaceChar (c : Char) : Bool :=
  c = ' ' || c = '\t' || c = '\n' || c = '\r' || c = '\x0b' || c = '\x0c'

/-- ASCII decimal digit, as matched by `\d`. -/
def isDigitChar (c : Char) : Bool :=
  c.isDigit

/-- Python `str.strip()` with no argument: drop leading and trailing whitespace. -/
def pyStrip (s : String) : String :=
  ⟨((s.data.dropWhile isSpaceChar).reverse.dropWhile isSpaceChar).reverse⟩

/-- Python `str.lower()` (ASCII case folding suffices for the parser's inputs). -/
def pyLower (s : String) : String :=
  ⟨s.data.map Char.toLower⟩

/-- Python `str.startswith(p)`. -/
def pyStarts (s p : String) : Bool :=
  p.data.isPrefixOf s.data

/-- Auxiliary scan for substring containment. -/
def containsAux (pat : List Char) : List Char → Bool
  | [] => pat.isEmpty
  | c :: rest => pat.isPrefixOf (c :: rest) || containsAux pat rest

/-- Python `pat in s` substring test. -/
def hasSubstr (s pat : String) : Bool :=
  containsAux pat.data s.data

/-- Auxiliary scan for `str.replace`: replace every non-overlapping
occurrence of `pat`, left to right.  The extra fuel argument (always run
with the input's length) keeps the recursion structural; a non-empty match
consumes at least one character, so the fuel never runs out. -/
def replaceAux (pat rep : List Char) : Nat → List Char → List Char
  | 0, l => l
  | _ + 1, [] => []
  | fuel + 1, c :: rest =>
    if pat.isPrefixOf (c :: rest) ∧ pat ≠ [] then
      rep ++ replaceAux pat rep fuel ((c :: rest).drop pat.length)
    else
      c :: replaceAux pat rep fuel rest

/-- Python `str.replace(pat, rep)`. -/
def pyReplace (s pat rep : String) : String :=
  ⟨replaceAux pat.data rep.data s.data.length s.data⟩

/-- Numeric value of a digit run. -/
def digitsVal (l : List Char) : Nat :=
  l.foldl (fun acc c => acc * 10 + (c.toNat - '0'.toNat)) 0

/-- Digit run check: nonempty and all ASCII digits. -/
def allDigits (l : List Char) : Bool :=
  !l.isEmpty && l.all isDigitChar

/-- Python `int(s)`: strip whitespace, optional sign, digit run.  (Python's
underscore digit separators are not modelled; the markup never uses them.) -/
def parseInt (s : String) : Option Int :=
  match (pyStrip s).data with
  | '+' :: ds => if allDigits ds then some (Int.ofNat (digitsVal ds)) else none
  | '-' :: ds => if allDigits ds then some (-(Int.ofNat (digitsVal ds))) else none
  | ds => if allDigits ds then some (Int.ofNat (digitsVal ds)) else none

/-- Python `str.split()` with no argument: split on whitespace runs, no empties. -/
def pySplitWs (s : String) : List String :=
  ((s.data.splitOnP isSpaceChar).map fun l => (⟨l⟩ : String)).filter (· ≠ "")

/-- Auxiliary: maximal runs of characters satisfying `p` (the behaviour of
`re.findall` for a character-class-plus pattern). -/
def runsByAux (p : Char → Bool) : List Char → List Char → List (List Char)
  | [], cur => if cur.isEmpty then [] else [cur.reverse]
  | c :: rest, cur =>
    if p c then runsByAux p rest (c :: cur)
    else if cur.isEmpty then runsByAux p rest []
    else cur.reverse :: runsByAux p rest []

/-- Python `re.findall(r"[\d,.]+", s)`. -/
def findNumTokens (s : String) : List String :=
  (runsByAux (fun c => isDigitChar c || c = ',' || c = '.') s.data []).map
    fun l => (⟨l⟩ : String)

/-- Python `re.findall(r"\d+", s)`. -/
def findDigitTokens (s : String) : List String :=
  (runsByAux isDigitChar s.data []).map fun l => (⟨l⟩ : String)

/-- Python `float(s)` restricted to strings of digits and dots (the only inputs the
parser feeds it, after `','` → `'.'` replacement): valid iff at most one dot
and at least one digit; the value is kept exactly as a rational. -/
def parsePyFloat (s : String) : Option Rat :=
  let cs := s.data
  if cs.all (fun c => isDigitChar c || c = '.') && cs.count '.' ≤ 1 &&
      cs.any isDigitChar then
    let parts := cs.splitOn '.'
    let ip := parts.headD []
    let fp := (parts.drop 1).headD []
    some ((digitsVal ip : Rat) + (digitsVal fp : Rat) / ((10 : Rat) ^ fp.length))
  else
    none

/-! ## Calendar arithmetic (proleptic Gregorian, as in `datetime`) -/

/-- Gregorian leap year. -/
def isLeap (y : Nat) : Bool :=
  y % 4 = 0 && (y % 100 ≠ 0 || y % 400 = 0)

/-- Days in a month (month in 1..12 assumed by callers). -/
def daysInMonth (y m : Nat) : Nat :=
  if m = 2 then (if isLeap y then 29 else 28)
  else if m = 4 || m = 6 || m = 9 || m = 11 then 30
  else 31

/-- Days in the months strictly before month `m` of year `y`. -/
def daysBeforeMonth (y m : Nat) : Nat :=
  let ℓ : Nat := if isLeap y then 1 else 0
  match m with
  | 1 => 0
  | 2 => 31
  | 3 => 59 + ℓ
  | 4 => 90 + ℓ
  | 5 => 120 + ℓ
  | 6 => 151 + ℓ
  | 7 => 181 + ℓ
  | 8 => 212 + ℓ
  | 9 => 243 + ℓ
  | 10 => 273 + ℓ
  | 11 => 304 + ℓ
  | 12 => 334 + ℓ
  | _ => 365 + ℓ

/-- Complete days before January 1 of year `y` (year ≥ 1). -/
def yearDays (y : Nat) : Nat :=
  365 * (y - 1) + (y - 1) / 4 - (y - 1) / 100 + (y - 1) / 400

/-- Day ordinal of a calendar date (0 for 0001-01-01). -/
def ordinalDay (y m d : Nat) : Nat :=
  yearDays y + daysBeforeMonth y m + (d - 1)

/-- An aware `datetime` value: calendar fields plus timezone tag. -/
structure DateTime where
  year : Nat
  month : Nat
  day : Nat
  hour : Nat
  minute : Nat
  second : Nat
  microsecond : Nat
  tz : String
deriving DecidableEq, Repr

/-- Python `datetime` date-field validity (the checks of the `datetime` constructor
relevant to year/month/day). -/
def validDate (y m d : Nat) : Bool :=
  1 ≤ y && y ≤ 9999 && 1 ≤ m && m ≤ 12 && 1 ≤ d && d ≤ daysInMonth y m

/-- Full `datetime` field validity. -/
def validDT (t : DateTime) : Bool :=
  validDate t.year t.month t.day && t.hour ≤ 23 && t.minute ≤ 59 &&
    t.second ≤ 59 && t.microsecond ≤ 999999

/-- Microsecond timestamp on the wall-clock timeline (the fixed-offset model
of the single reference zone makes aware comparison equal to wall-clock
comparison). -/
def stampNat (t : DateTime) : Nat :=
  ((((ordinalDay t.year t.month t.day) * 24 + t.hour) * 60 + t.minute) * 60 +
      t.second) * 1000000 + t.microsecond

/-- Python `timedelta(days=180)` in microseconds. -/
def days180 : Nat := 180 * 86400000000

/-- Python `now - timedelta(days=1)` on the wall clock (time of day kept). -/
def prevDay (t : DateTime) : DateTime :=
  if 1 < t.day then { t with day := t.day - 1 }
  else if 1 < t.month then
    { t with month := t.month - 1, day := daysInMonth t.year (t.month - 1) }
  else
    { t with year := t.year - 1, month := 12, day := 31 }

/-! ## The two regular expressions of `parse_bergfex_datetime`

`re.search` is leftmost-match with backtracking; for these two concrete
patterns the backtracking alternatives are enumerated explicitly, in the
preference order of the Python engine (greedy `\d{1,2}` tries two digits
then one; `(?: ...)?` tries present then absent; `(?:,|\.)?` tries each
literal then absent; `\s*` before a digit class is forced to the maximal
whitespace run, since no whitespace character is a digit). -/

/-- Digit value of a character. -/
def digitVal (c : Char) : Nat :=
  c.toNat - '0'.toNat

/-- Greedy alternatives for `\d{1,2}`: (value, rest) pairs in preference
order. -/
def alts12 : List Char → List (Nat × List Char)
  | a :: b :: rest =>
    if isDigitChar a && isDigitChar b then
      [(digitVal a * 10 + digitVal b, rest), (digitVal a, b :: rest)]
    else if isDigitChar a then [(digitVal a, b :: rest)]
    else []
  | [a] => if isDigitChar a then [(digitVal a, [])] else []
  | [] => []

/-- Exactly two digits (`\d{2}`). -/
def take2Digits : List Char → Option (Nat × List Char)
  | a :: b :: rest =>
    if isDigitChar a && isDigitChar b then
      some (digitVal a * 10 + digitVal b, rest)
    else none
  | _ => none

/-- Exactly four digits (`\d{4}`). -/
def take4Digits : List Char → Option (Nat × List Char)
  | a :: b :: c :: d :: rest =>
    if isDigitChar a && isDigitChar b && isDigitChar c && isDigitChar d then
      some (((digitVal a * 10 + digitVal b) * 10 + digitVal c) * 10 +
        digitVal d, rest)
    else none
  | _ => none

/-- A literal character. -/
def lit (ch : Char) : List Char → Option (List Char)
  | c :: rest => if c = ch then some rest else none
  | [] => none

/-- Match `(\d{1,2}):(\d{2})` at the head of the input. -/
def matchTimeAt (cs : List Char) : Option (Nat × Nat) :=
  (alts12 cs).findSome? fun hc =>
    (lit ':' hc.2).bind fun cs2 =>
      (take2Digits cs2).map fun mc => (hc.1, mc.1)

/-- Python `re.search(r"(\d{1,2}):(\d{2})", s)`: leftmost match. -/
def searchTime : List Char → Option (Nat × Nat)
  | [] => none
  | c :: rest =>
    match matchTimeAt (c :: rest) with
    | some r => some r
    | none => searchTime rest

/-- The capture groups of the absolute-date pattern
`(\d{1,2})\.(\d{1,2})\.(?:\s*(\d{4}))?(?:,|\.)?\s*(\d{1,2}):(\d{2})`. -/
structure AbsMatch where
  day : Nat
  month : Nat
  year : Option Nat
  hour : Nat
  minute : Nat
deriving DecidableEq, Repr

/-- Alternatives for `(?:\s*(\d{4}))?`, in preference order. -/
def yearAlts (cs : List Char) : List (Option Nat × List Char) :=
  (match take4Digits (cs.dropWhile isSpaceChar) with
   | some yc => [(some yc.1, yc.2)]
   | none => []) ++ [(none, cs)]

/-- Alternatives for `(?:,|\.)?`, in preference order. -/
def sepAlts (cs : List Char) : List (List Char) :=
  (match cs with
   | c :: rest => if c = ',' || c = '.' then [rest] else []
   | [] => []) ++ [cs]

/-- Match the absolute-date pattern at the head of the input. -/
def matchAbsAt (cs : List Char) : Option AbsMatch :=
  (alts12 cs).findSome? fun dc =>
    (lit '.' dc.2).bind fun cs2 =>
      (alts12 cs2).findSome? fun mc =>
        (lit '.' mc.2).bind fun cs4 =>
          (yearAlts cs4).findSome? fun yc =>
            (sepAlts yc.2).findSome? fun cs6 =>
              (alts12 (cs6.dropWhile isSpaceChar)).findSome? fun hc =>
                (lit ':' hc.2).bind fun cs8 =>
                  (take2Digits cs8).map fun mic =>
                    ⟨dc.1, mc.1, yc.1, hc.1, mic.1⟩

/-- Leftmost search for the absolute-date pattern. -/
def searchAbs : List Char → Option AbsMatch
  | [] => none
  | c :: rest =>
    match matchAbsAt (c :: rest) with
    | some r => some r
    | none => searchAbs rest

/-- Python `re.search` of the absolute-date pattern over a string. -/
def matchAbs (s : String) : Option AbsMatch :=
  searchAbs s.data

/-! ## `parse_bergfex_datetime` (parser.py lines 73-128) -/

/-- The constructed absolute datetime: `datetime(y, mo, d, h, mi, tzinfo=tz)`
with `tz = ZoneInfo("Europe/Paris")`. -/
def mkAbs (y mo d h mi : Nat) : DateTime :=
  ⟨y, mo, d, h, mi, 0, 0, "Europe/Paris"⟩

/-- Python `base.replace(hour=h, minute=mi, second=0, microsecond=0)`: raises
`ValueError` when the new field values are out of range. -/
def replaceHM (base : DateTime) (h mi : Nat) : Except String (Option DateTime) :=
  if h ≤ 23 && mi ≤ 59 then
    .ok (some { base with hour := h, minute := mi, second := 0, microsecond := 0 })
  else
    .error "ValueError"

/-- Python `date_str.startswith(("aujourd", "today", "heute"))`. -/
def todayStart (t : String) : Bool :=
  pyStarts t "aujourd" || pyStarts t "today" || pyStarts t "heute"

/-- Python `date_str.startswith(("hier", "yesterday", "gestern"))`. -/
def yesterdayStart (t : String) : Bool :=
  pyStarts t "hier" || pyStarts t "yesterday" || pyStarts t "gestern"

/-- Any relative-date word at the start of the string. -/
def relStart (t : String) : Bool :=
  todayStart t || yesterdayStart t

/-- The absolute-date branch, parser.py lines 109-125.  The source computes
`year = int(m.group(3)) if m.group(3) else now.year` and then conditions the
rollback on `not m.group(3)`; the embedding splits on the optional year group
first, which is the same case analysis.  All `ValueError`s of this branch are
caught by the source's `try/except`, so it returns an `Option` directly. -/
def parseAbsolute (t : String) (now : DateTime) : Option DateTime :=
  match matchAbs t with
  | none => none
  | some m =>
    match m.year with
    | some y =>
      if validDate y m.month m.day && m.hour ≤ 23 && m.minute ≤ 59 then
        some (mkAbs y m.month m.day m.hour m.minute)
      else none
    | none =>
      if validDate now.year m.month m.day && m.hour ≤ 23 && m.minute ≤ 59 then
        if stampNat now + days180 < stampNat (mkAbs now.year m.month m.day m.hour m.minute) then
          if validDate (now.year - 1) m.month m.day then
            some (mkAbs (now.year - 1) m.month m.day m.hour m.minute)
          else none
        else
          some (mkAbs now.year m.month m.day m.hour m.minute)
      else none

/-- Python `parse_bergfex_datetime` (parser.py lines 73-128).  `now` stands for
`datetime.now(ZoneInfo("Europe/Paris"))`.  The relative branches call
`.replace(hour=..., minute=..., ...)` outside any `try`, so an out-of-range
time raises to the caller (`.error`). -/
def parse_bergfex_datetime (s : String) (now : DateTime) :
    Except String (Option DateTime) :=
  if s = "" then .ok none
  else
    let t := pyLower (pyStrip s)
    match (if todayStart t then searchTime t.data else none) with
    | some hm => replaceHM now hm.1 hm.2
    | none =>
      match (if yesterdayStart t then searchTime t.data else none) with
      | some hm => replaceHM (prevDay now) hm.1 hm.2
      | none => .ok (parseAbsolute t now)

/-! ## The document model and `get_text_for_labels` -/

/-- A markup element: tag name, class list, text content (see the modelling
conventions in the file header). -/
structure Element where
  tag : String
  classes : List String
  text : String
deriving DecidableEq, Repr

/-- The predicate of `soup.find("dt", string=lambda t: t and label in t)`:
a `dt` whose string is non-empty and contains `label`. -/
def isDtMatch (e : Element) (label : String) : Bool :=
  e.tag = "dt" && e.text ≠ "" && hasSubstr e.text label

/-- Python `soup.find("dt", string=...)`: first matching `dt` in document order;
returns the elements after it (its following siblings). -/
def findDt : List Element → String → Option (List Element)
  | [], _ => none
  | e :: rest, label =>
    if isDtMatch e label then some rest else findDt rest label

/-- Python `dt.find_next_sibling("dd")`: first following `dd`. -/
def findNextDd : List Element → Option Element
  | [] => none
  | e :: rest => if e.tag = "dd" then some e else findNextDd rest

/-- Python `get_text_for_labels` (parser.py lines 60-66): for each label variant in
list order, find the first matching `dt`; if it has a following `dd`,
return that `dd`'s stripped text, else try the next variant. -/
def get_text_for_labels (doc : List Element) (labels : List String) :
    Option String :=
  match labels with
  | [] => none
  | label :: rest =>
    match findDt doc label with
    | some tail =>
      match findNextDd tail with
      | some dd => some (pyStrip dd.text)
      | none => get_text_for_labels doc rest
    | none => get_text_for_labels doc rest

/-! ## The label table `LABELS` (parser.py lines 19-53) -/

namespace LABELS

def snow_condition : List String :=
  ["État de la neige", "Snow condition", "Schneezustand"]

def last_snowfall : List String :=
  ["Dernière chute de neige Région", "Latest snowfall Region", "Letzter Schneefall"]

def avalanche_warning : List String :=
  ["Niveau d’alerte avalanches", "Avalanche alert level", "Lawinenwarnstufe"]

def lifts : List String :=
  ["Remontées ouvertes", "Open lifts", "Offene Lifte"]

def slopes : List String :=
  ["Pistes ouvertes", "Open pistes", "Offene Pisten"]

def slope_condition : List String :=
  ["État de la piste", "Piste conditions", "Pistenzustand"]

def mountain : List String := ["Sommet", "Mountain", "Berg"]

def valley : List String := ["Vallée", "Valley", "Tal"]

def snow_height : List String := ["Hauteur de neige", "Snow depth", "Schneehöhe"]

end LABELS

/-! ## The record built by `parse_resort_page` -/

/-- A value stored in the `data` dict.  Python never stores `None` (every
assignment is guarded by a truthiness check), so there is no null
constructor; the final pruning comparison with `None` is thus vacuous. -/
inductive Value where
  | str (s : String)
  | int (n : Int)
  | float (q : Rat)
  | dt (d : DateTime)
deriving DecidableEq, Repr

/-- A Python dict with insertion order: an association list with unique
keys. -/
abbrev Record := List (String × Value)

/-- Python `data[k] = v`: replace in place if the key exists, else append. -/
def dictInsert : Record → String → Value → Record
  | [], k, v => [(k, v)]
  | kv :: rest, k, v =>
    if kv.1 = k then (k, v) :: rest else kv :: dictInsert rest k v

/-- Python `data.get(k)` / `k in data`. -/
def dictGet : Record → String → Option Value
  | [], _ => none
  | kv :: rest, k => if kv.1 = k then some kv.2 else dictGet rest k

/-! ## `parse_resort_page` (parser.py lines 135-210) -/

/-- Lines 140-142: `if h1 := soup.find("h1"): data["resort_name"] = ...`. -/
def resortNameStep (doc : List Element) (data : Record) : Record :=
  match doc.find? (fun e => e.tag = "h1") with
  | some h1 => dictInsert data "resort_name" (.str (pyStrip h1.text))
  | none => data

/-- Python `dt.find_next_sibling("dd", class_="big")`. -/
def findNextDdBig : List Element → Option Element
  | [] => none
  | e :: rest =>
    if e.tag = "dd" && "big" ∈ e.classes then some e else findNextDdBig rest

/-- One `if ... : if dd := dt.find_next_sibling("dd", class_="big"): ...`
block: insert the `dd`'s text with `"cm"` removed and stripped, if a big
`dd` follows. -/
def bigInsert (data : Record) (key : String) (rest : List Element) : Record :=
  match findNextDdBig rest with
  | some dd =>
    dictInsert data key (.str (pyStrip (pyReplace dd.text "cm" "")))
  | none => data

/-- An `if <cond>: <bigInsert>` block. -/
def condBigInsert (cond : Bool) (data : Record) (key : String)
    (rest : List Element) : Record :=
  if cond then bigInsert data key rest else data

/-- The body of the `for dt in soup.find_all("dt", class_="big")` loop
(lines 145-159) for one `dt` with following siblings `rest`: the mountain,
valley, and snow-height blocks in sequence (the snow-height block fires
only when `"snow_valley" not in data`). -/
def bigStep (e : Element) (rest : List Element) (data : Record) : Record :=
  let text := pyStrip e.text
  let d1 := condBigInsert (LABELS.mountain.any fun k => hasSubstr text k)
    data "snow_mountain" rest
  let d2 := condBigInsert (LABELS.valley.any fun k => hasSubstr text k)
    d1 "snow_valley" rest
  condBigInsert
    ((LABELS.snow_height.any fun k => hasSubstr text k) &&
      (dictGet d2 "snow_valley").isNone)
    d2 "snow_valley" rest

/-- The snow-depth loop over all `dt` elements with class `big`. -/
def bigLoop : List Element → Record → Record
  | [], data => data
  | e :: rest, data =>
    let data :=
      if e.tag = "dt" && "big" ∈ e.classes then bigStep e rest data else data
    bigLoop rest data

/-- Python `if v := get_text_for_labels(...): data[k] = v` (truthiness guard). -/
def insertIfTruthy (data : Record) (k : String) (o : Option String) : Record :=
  match o with
  | some v => if v = "" then data else dictInsert data k (.str v)
  | none => data

/-- Line 168-169: avalanche warning with the provider-name substring
stripped from the stored value. -/
def avalancheStep (doc : List Element) (data : Record) : Record :=
  match get_text_for_labels doc LABELS.avalanche_warning with
  | some v =>
    if v = "" then data
    else dictInsert data "avalanche_warning"
      (.str (pyStrip (pyReplace v "Lawinenwarndienst" "")))
  | none => data

/-- Auxiliary scan for `re.split(r"von|of", v)`: alternation tries `von`
first, scanning left to right. -/
def splitVonOfAux : List Char → List Char → List String
  | acc, [] => [(⟨acc.reverse⟩ : String)]
  | acc, 'v' :: 'o' :: 'n' :: rest => (⟨acc.reverse⟩ : String) :: splitVonOfAux [] rest
  | acc, 'o' :: 'f' :: rest => (⟨acc.reverse⟩ : String) :: splitVonOfAux [] rest
  | acc, c :: rest => splitVonOfAux (c :: acc) rest

/-- Python `re.split(r"von|of", v)`. -/
def splitVonOf (v : String) : List String :=
  splitVonOfAux [] v.data

/-- Python `parts[1].strip().split()[0]`, as an `Option` (`IndexError` is caught
by the block's `except Exception`). -/
def totalTok (parts : List String) : Option String :=
  ((parts.drop 1).head?).bind fun p => (pySplitWs (pyStrip p)).head?

/-- Python `int(parts[1].strip().split()[0])` stored as the total count; an
`IndexError` or `ValueError` here is caught by the block's
`except Exception`, leaving `data` (with the open count already set)
as it is. -/
def liftsTotal (parts : List String) (data : Record) : Record :=
  match (totalTok parts).bind parseInt with
  | none => data
  | some tot => dictInsert data "lifts_total_count" (.int tot)

/-- Python `int(parts[0].strip())` stored as the open count, then the total
parse; a failure on `parts[0]` leaves `data` untouched. -/
def liftsOpen (parts : List String) (data : Record) : Record :=
  match parseInt (pyStrip (parts.headD "")) with
  | none => data
  | some n => liftsTotal parts (dictInsert data "lifts_open_count" (.int n))

/-- Lines 173-179: the combined "open of total" lift parse.  The assignment
to `lifts_open_count` happens before the total parse is attempted, so a
failure on the total leaves the open count in `data` (the `except` only
stops further work). -/
def liftsParse (v : String) (data : Record) : Record :=
  if hasSubstr v "von" || hasSubstr v "of" then
    liftsOpen (splitVonOf v) data
  else data

/-- Lines 171-179: the lifts block. -/
def liftsStep (doc : List Element) (data : Record) : Record :=
  match get_text_for_labels doc LABELS.lifts with
  | some v => if v = "" then data else liftsParse v data
  | none => data

/-- Lines 181-194: the slopes block.  The `float(...)` conversions are not
inside any `try`, so an invalid token raises to the caller. -/
def slopesParse (v : String) (data : Record) : Except String Record :=
  if hasSubstr v "km" then
    match findNumTokens v with
    | [] => .ok data
    | n0 :: rest =>
      match parsePyFloat (pyReplace n0 "," ".") with
      | none => .error "ValueError"
      | some q0 =>
        let data := dictInsert data "slopes_open_km" (.float q0)
        match rest with
        | [] => .ok data
        | n1 :: _ =>
          match parsePyFloat (pyReplace n1 "," ".") with
          | none => .error "ValueError"
          | some q1 => .ok (dictInsert data "slopes_total_km" (.float q1))
  else
    match findDigitTokens v with
    | [] => .ok data
    | n0 :: rest =>
      let data := dictInsert data "slopes_open_count" (.int (digitsVal n0.data))
      match rest with
      | [] => .ok data
      | n1 :: _ => .ok (dictInsert data "slopes_total_count" (.int (digitsVal n1.data)))

/-- The slopes block with its label lookup and truthiness guard. -/
def slopesStep (doc : List Element) (data : Record) : Except String Record :=
  match get_text_for_labels doc LABELS.slopes with
  | some v => if v = "" then .ok data else slopesParse v data
  | none => .ok data

/-- Lines 200-203: last update from the `div.h2-sub` subtitle, through the
date parser (whose relative branches can raise). -/
def lastUpdateStep (now : DateTime) (doc : List Element) (data : Record) :
    Except String Record :=
  match doc.find? (fun e => e.tag = "div" && "h2-sub" ∈ e.classes) with
  | none => .ok data
  | some sub =>
    match parse_bergfex_datetime (pyStrip sub.text) now with
    | .error e => .error e
    | .ok none => .ok data
    | .ok (some d) => .ok (dictInsert data "last_update" (.dt d))

/-- Python `data.get("lifts_open_count", 0) > 0`.  The key only ever holds `int`
values (only the lifts block writes it), so the non-`int` case cannot
occur. -/
def liftsOpenPos (data : Record) : Bool :=
  match dictGet data "lifts_open_count" with
  | some (.int n) => 0 < n
  | _ => false

/-- The final pruning predicate of line 210: keep `(k, v)` unless `v` is the
empty string or a lone dash (the `None` comparison never fires, see
`Value`). -/
def keepEntry (kv : String × Value) : Bool :=
  kv.2 ≠ .str "" && kv.2 ≠ .str "-"

/-- Lines 138-179 of `parse_resort_page`: the `data` dict after the resort
name, the big snow-depth loop, the three textual fields, and the lifts
block — everything before the slopes block (which is the first point that
can raise). -/
def stageA (doc : List Element) : Record :=
  liftsStep doc
    (avalancheStep doc
      (insertIfTruthy
        (insertIfTruthy (bigLoop doc (resortNameStep doc []))
          "snow_condition" (get_text_for_labels doc LABELS.snow_condition))
        "last_snowfall" (get_text_for_labels doc LABELS.last_snowfall)))

/-- Python `parse_resort_page` (parser.py lines 135-210).  `now` stands for the
clock read by the nested `parse_bergfex_datetime` call; the input is the
parsed document. -/
def parse_resort_page (now : DateTime) (doc : List Element) :
    Except String Record :=
  match slopesStep doc (stageA doc) with
  | .error e => .error e
  | .ok d5 =>
    match lastUpdateStep now doc
        (insertIfTruthy d5 "slope_condition"
          (get_text_for_labels doc LABELS.slope_condition)) with
    | .error e => .error e
    | .ok d7 =>
      .ok ((dictInsert d7 "status"
        (.str (if liftsOpenPos d7 then "Open" else "Closed"))).filter keepEntry)

/-! ## Dictionary lemmas -/

theorem dictGet_insert_self (d : Record) (k : String) (v : Value) :
    dictGet (dictInsert d k v) k = some v := by
  induction d with
  | nil => simp [dictInsert, dictGet]
  | cons kv rest ih =>
    by_cases h : kv.1 = k <;> simp [dictInsert, dictGet, h, ih]

theorem dictGet_insert_ne (d : Record) (k : String) (v : Value) (k' : String)
    (h : k' ≠ k) : dictGet (dictInsert d k v) k' = dictGet d k' := by
  induction d with
  | nil => simp [dictInsert, dictGet, Ne.symm h]
  | cons kv rest ih =>
    by_cases hk : kv.1 = k
    · simp [dictInsert, dictGet, hk, Ne.symm h, h]
    · simp [dictInsert, dictGet, hk, ih]

theorem dictGet_filter_none (d : Record) (k : String)
    (p : String × Value → Bool) (h : dictGet d k = none) :
    dictGet (d.filter p) k = none := by
  induction d with
  | nil => simp [dictGet]
  | cons kv rest ih =>
    simp only [dictGet] at h
    by_cases hk : kv.1 = k
    · simp [hk] at h
    · by_cases hp : p kv <;>
        simp_all [List.filter_cons, dictGet, hk]

theorem dictGet_filter_some (d : Record) (k : String) (v : Value)
    (p : String × Value → Bool) (h : dictGet d k = some v)
    (hp : p (k, v) = true) : dictGet (d.filter p) k = some v := by
  induction d with
  | nil => simp [dictGet] at h
  | cons kv rest ih =>
    by_cases hk : kv.1 = k
    · have hv : kv.2 = v := by
        simp only [dictGet, hk, if_pos] at h
        exact Option.some.inj h
      have hkv : kv = (k, v) := by
        obtain ⟨a, b⟩ := kv
        simp_all
      rw [hkv]
      simp [List.filter_cons, hp, dictGet]
    · simp only [dictGet, hk, if_false] at h
      by_cases hq : p kv
      · simp [List.filter_cons, hq, dictGet, hk, ih h]
      · simp [List.filter_cons, hq, ih h]

/-! ## Key-preservation lemmas: each step of `parse_resort_page` only
writes its own field names -/

theorem resortNameStep_get (doc : List Element) (d : Record) (k : String)
    (h : k ≠ "resort_name") :
    dictGet (resortNameStep doc d) k = dictGet d k := by
  unfold resortNameStep
  cases doc.find? (fun e => e.tag = "h1") <;>
    simp [dictGet_insert_ne _ _ _ _ h]

theorem bigInsert_get (data : Record) (key : String) (rest : List Element)
    (k : String) (h : k ≠ key) :
    dictGet (bigInsert data key rest) k = dictGet data k := by
  unfold bigInsert
  cases findNextDdBig rest <;> simp [dictGet_insert_ne _ _ _ _ h]

theorem condBigInsert_get (cond : Bool) (data : Record) (key : String)
    (rest : List Element) (k : String) (h : k ≠ key) :
    dictGet (condBigInsert cond data key rest) k = dictGet data k := by
  unfold condBigInsert
  split
  · exact bigInsert_get data key rest k h
  · rfl

theorem bigStep_get (e : Element) (rest : List Element) (d : Record)
    (k : String) (h1 : k ≠ "snow_mountain") (h2 : k ≠ "snow_valley") :
    dictGet (bigStep e rest d) k = dictGet d k := by
  unfold bigStep
  rw [condBigInsert_get _ _ _ _ _ h2, condBigInsert_get _ _ _ _ _ h2,
    condBigInsert_get _ _ _ _ _ h1]

theorem bigLoop_get (doc : List Element) (d : Record) (k : String)
    (h1 : k ≠ "snow_mountain") (h2 : k ≠ "snow_valley") :
    dictGet (bigLoop doc d) k = dictGet d k := by
  induction doc generalizing d with
  | nil => rfl
  | cons e rest ih =>
    unfold bigLoop
    split
    · rw [ih, bigStep_get e rest d k h1 h2]
    · exact ih d

theorem insertIfTruthy_get (d : Record) (k : String) (o : Option String)
    (k' : String) (h : k' ≠ k) :
    dictGet (insertIfTruthy d k o) k' = dictGet d k' := by
  unfold insertIfTruthy
  repeat' split
  all_goals first | rfl | simp [dictGet_insert_ne _ _ _ _ h]

theorem avalancheStep_get (doc : List Element) (d : Record) (k : String)
    (h : k ≠ "avalanche_warning") :
    dictGet (avalancheStep doc d) k = dictGet d k := by
  unfold avalancheStep
  repeat' split
  all_goals first | rfl | simp [dictGet_insert_ne _ _ _ _ h]

theorem liftsTotal_get (parts : List String) (dd : Record) (k : String)
    (h2 : k ≠ "lifts_total_count") :
    dictGet (liftsTotal parts dd) k = dictGet dd k := by
  unfold liftsTotal
  cases (totalTok parts).bind parseInt with
  | none => rfl
  | some tot => exact dictGet_insert_ne _ _ _ _ h2

theorem liftsOpen_get (parts : List String) (d : Record) (k : String)
    (h1 : k ≠ "lifts_open_count") (h2 : k ≠ "lifts_total_count") :
    dictGet (liftsOpen parts d) k = dictGet d k := by
  unfold liftsOpen
  cases parseInt (pyStrip (parts.headD "")) with
  | none => rfl
  | some n => rw [liftsTotal_get _ _ _ h2, dictGet_insert_ne _ _ _ _ h1]

theorem liftsParse_get (v : String) (d : Record) (k : String)
    (h1 : k ≠ "lifts_open_count") (h2 : k ≠ "lifts_total_count") :
    dictGet (liftsParse v d) k = dictGet d k := by
  unfold liftsParse
  split
  · exact liftsOpen_get _ _ _ h1 h2
  · rfl

theorem liftsStep_get (doc : List Element) (d : Record) (k : String)
    (h1 : k ≠ "lifts_open_count") (h2 : k ≠ "lifts_total_count") :
    dictGet (liftsStep doc d) k = dictGet d k := by
  unfold liftsStep
  repeat' split
  all_goals first | rfl | exact liftsParse_get _ d k h1 h2

theorem slopesParse_get (v : String) (d d' : Record) (k : String)
    (hok : slopesParse v d = .ok d')
    (h1 : k ≠ "slopes_open_km") (h2 : k ≠ "slopes_total_km")
    (h3 : k ≠ "slopes_open_count") (h4 : k ≠ "slopes_total_count") :
    dictGet d' k = dictGet d k := by
  unfold slopesParse at hok
  repeat' split at hok
  all_goals try simp only [] at hok
  all_goals cases hok
  all_goals
    first
    | rfl
    | simp [dictGet_insert_ne _ _ _ _ h1, dictGet_insert_ne _ _ _ _ h2,
        dictGet_insert_ne _ _ _ _ h3, dictGet_insert_ne _ _ _ _ h4]

theorem slopesStep_get (doc : List Element) (d d' : Record) (k : String)
    (hok : slopesStep doc d = .ok d')
    (h1 : k ≠ "slopes_open_km") (h2 : k ≠ "slopes_total_km")
    (h3 : k ≠ "slopes_open_count") (h4 : k ≠ "slopes_total_count") :
    dictGet d' k = dictGet d k := by
  unfold slopesStep at hok
  repeat' split at hok
  all_goals
    first
    | exact slopesParse_get _ _ _ _ hok h1 h2 h3 h4
    | (cases hok; rfl)

theorem lastUpdateStep_get (now : DateTime) (doc : List Element)
    (d d' : Record) (k : String) (hok : lastUpdateStep now doc d = .ok d')
    (h : k ≠ "last_update") : dictGet d' k = dictGet d k := by
  unfold lastUpdateStep at hok
  repeat' split at hok
  all_goals cases hok
  all_goals first | rfl | simp [dictGet_insert_ne _ _ _ _ h]

/-! ## Aggregate facts about `parse_resort_page` -/

/-- Every key `parse_resort_page` can ever write before the status step,
plus `"status"` itself. -/
def parseRecordKeys : List String :=
  ["resort_name", "snow_mountain", "snow_valley", "snow_condition",
   "last_snowfall", "avalanche_warning", "lifts_open_count",
   "lifts_total_count", "slopes_open_km", "slopes_total_km",
   "slopes_open_count", "slopes_total_count", "slope_condition",
   "last_update", "status"]

theorem stageA_get (doc : List Element) (k : String)
    (h1 : k ≠ "resort_name") (h2 : k ≠ "snow_mountain")
    (h3 : k ≠ "snow_valley") (h4 : k ≠ "snow_condition")
    (h5 : k ≠ "last_snowfall") (h6 : k ≠ "avalanche_warning")
    (h7 : k ≠ "lifts_open_count") (h8 : k ≠ "lifts_total_count") :
    dictGet (stageA doc) k = none := by
  unfold stageA
  rw [liftsStep_get _ _ _ h7 h8, avalancheStep_get _ _ _ h6,
    insertIfTruthy_get _ _ _ _ h5, insertIfTruthy_get _ _ _ _ h4,
    bigLoop_get _ _ _ h2 h3, resortNameStep_get _ _ _ h1]
  rfl

/-- The value at `"lifts_open_count"`, when present, is always an `int`:
only the lifts block writes that key, and it writes `int(...)`. -/
theorem liftsParse_open (v : String) (d : Record) :
    dictGet (liftsParse v d) "lifts_open_count" =
      dictGet d "lifts_open_count" ∨
    ∃ n : Int, dictGet (liftsParse v d) "lifts_open_count" =
      some (.int n) := by
  unfold liftsParse
  split
  · unfold liftsOpen
    cases parseInt (pyStrip ((splitVonOf v).headD "")) with
    | none => left; rfl
    | some n =>
      right
      refine ⟨n, ?_⟩
      rw [liftsTotal_get _ _ _ (by decide), dictGet_insert_self]
  · left; rfl

theorem liftsStep_open (doc : List Element) (d : Record) :
    dictGet (liftsStep doc d) "lifts_open_count" =
      dictGet d "lifts_open_count" ∨
    ∃ n : Int, dictGet (liftsStep doc d) "lifts_open_count" =
      some (.int n) := by
  unfold liftsStep
  repeat' split
  all_goals first | (left; rfl) | exact liftsParse_open _ _

theorem stageA_open (doc : List Element) :
    dictGet (stageA doc) "lifts_open_count" = none ∨
    ∃ n : Int, dictGet (stageA doc) "lifts_open_count" = some (.int n) := by
  unfold stageA
  rcases liftsStep_open doc
      (avalancheStep doc
        (insertIfTruthy
          (insertIfTruthy (bigLoop doc (resortNameStep doc []))
            "snow_condition" (get_text_for_labels doc LABELS.snow_condition))
          "last_snowfall" (get_text_for_labels doc LABELS.last_snowfall)))
    with h | h
  · left
    rw [h, avalancheStep_get _ _ _ (by decide),
      insertIfTruthy_get _ _ _ _ (by decide),
      insertIfTruthy_get _ _ _ _ (by decide),
      bigLoop_get _ _ _ (by decide) (by decide),
      resortNameStep_get _ _ _ (by decide)]
    rfl
  · right
    exact h

/-- Shape of every successful `parse_resort_page` result: the pre-status
record `d`, the derived status entry, and the final pruning. -/
theorem parse_ok_cases (now : DateTime) (doc : List Element) (r : Record)
    (h : parse_resort_page now doc = .ok r) :
    ∃ d : Record,
      r = (dictInsert d "status"
        (.str (if liftsOpenPos d then "Open" else "Closed"))).filter keepEntry ∧
      dictGet d "lifts_open_count" = dictGet (stageA doc) "lifts_open_count" ∧
      (∀ k : String, k ≠ "slopes_open_km" → k ≠ "slopes_total_km" →
        k ≠ "slopes_open_count" → k ≠ "slopes_total_count" →
        k ≠ "slope_condition" → k ≠ "last_update" →
        dictGet d k = dictGet (stageA doc) k) := by
  unfold parse_resort_page at h
  cases hs : slopesStep doc (stageA doc) with
  | error e => rw [hs] at h; simp at h
  | ok d5 =>
    rw [hs] at h
    simp only [] at h
    cases hl : lastUpdateStep now doc
        (insertIfTruthy d5 "slope_condition"
          (get_text_for_labels doc LABELS.slope_condition)) with
    | error e => rw [hl] at h; simp at h
    | ok d7 =>
      rw [hl] at h
      simp only [Except.ok.injEq] at h
      refine ⟨d7, h.symm, ?_, ?_⟩
      · rw [lastUpdateStep_get _ _ _ _ _ hl (by decide),
          insertIfTruthy_get _ _ _ _ (by decide),
          slopesStep_get _ _ _ _ hs (by decide) (by decide) (by decide)
            (by decide)]
      · intro k hk1 hk2 hk3 hk4 hk5 hk6
        rw [lastUpdateStep_get _ _ _ _ _ hl hk6,
          insertIfTruthy_get _ _ _ _ hk5,
          slopesStep_get _ _ _ _ hs hk1 hk2 hk3 hk4]

/-! ## The forecast-image extractor (modelled from the spec) -/

/-- One gallery container: the inner link's URL and caption attribute. -/
structure GalleryItem where
  href : String
  caption : String
deriving DecidableEq, Repr

/-- Modelled from the spec: `parse_snow_forecast_images` belongs to this
repository's parser module (its test and imports exist under `src/`) but
its definition does not; spec §4.4 specifies it.  Scanning gallery
containers in order: the first is the "daily" image, the second the
"12-hour" image, and — only when the requested page number is non-zero — a
third container, if present, is the "summary" image; with page number
zero any third container is ignored and the summary keys are omitted. -/
def parse_snow_forecast_images (items : List GalleryItem) (page : Nat) :
    List (String × String) :=
  match items with
  | [] => []
  | [c1] => [("daily_forecast_url", c1.href), ("daily_caption", c1.caption)]
  | c1 :: c2 :: rest =>
    [("daily_forecast_url", c1.href), ("daily_caption", c1.caption),
     ("twelve_hour_forecast_url", c2.href),
     ("twelve_hour_caption", c2.caption)] ++
    (if page ≠ 0 then
      match rest with
      | c3 :: _ => [("summary_url", c3.href), ("summary_caption", c3.caption)]
      | [] => []
    else [])

/-- Key lookup in a forecast-image result. -/
def lookupStr : List (String × String) → String → Option String
  | [], _ => none
  | kv :: rest, k => if kv.1 = k then some kv.2 else lookupStr rest k

/-! ## Claim theorems -/

/-- A reference clock value for concrete evaluations:
2025-11-20 10:00:00 Europe/Paris. -/
def nowRef : DateTime := ⟨2025, 11, 20, 10, 0, 0, 0, "Europe/Paris"⟩

/-- A resort page whose slopes text contains `km` but whose only
`[\d,.]+` token is a bare comma. -/
def kmCommaDoc : List Element :=
  [⟨"dt", [], "Open pistes"⟩, ⟨"dd", [], ", km"⟩]

/-- C1: the claim says neither `parse_bergfex_datetime` nor
`parse_resort_page` ever raises.  In fact both raise `ValueError` on the
very inputs the claim cites: the relative-today branch calls
`now.replace(hour=25, ...)` outside any `try`, and the slopes-km branch
calls `float(".")` outside any `try`. -/
theorem parsers_raise_on_malformed_inputs :
    parse_bergfex_datetime "today 25:00" nowRef = .error "ValueError" ∧
    parse_resort_page nowRef kmCommaDoc = .error "ValueError" :=
  ⟨rfl, rfl⟩

/-- A document whose earlier `dt` matches only the later-listed variant
(`"Berg"`) and whose later `dt` matches the earlier-listed variant
(`"Sommet"`) of the `mountain` label category. -/
def crossMatchDoc : List Element :=
  [⟨"dt", [], "Berg"⟩, ⟨"dd", [], "first"⟩,
   ⟨"dt", [], "Sommet"⟩, ⟨"dd", [], "second"⟩]

/-- C2 counterexample: the claim predicts the earlier document element's
value (`"first"`) is returned; the code returns the later element's value
(`"second"`) because it iterates variants in list order, not document
elements. -/
theorem label_resolution_document_order_counterexample :
    get_text_for_labels crossMatchDoc LABELS.mountain = some "second" ∧
    get_text_for_labels crossMatchDoc LABELS.mountain ≠ some "first" := by
  exact ⟨rfl, by decide⟩

/-- Auxiliary: `soup.find` skips a prefix with no matching `dt`. -/
theorem findDt_append (pre rest : List Element) (l : String)
    (h : ∀ e ∈ pre, isDtMatch e l = false) :
    findDt (pre ++ rest) l = findDt rest l := by
  induction pre with
  | nil => rfl
  | cons e pre ih =>
    simp only [List.cons_append, findDt, h e (List.mem_cons_self e pre)]
    exact ih fun x hx => h x (List.mem_cons_of_mem _ hx)

/-- C2 amended: label resolution iterates the locale variants in list
order and, per variant, takes the first matching `dt` in document order;
so when an earlier document element matches only a later-listed variant
and a later document element matches an earlier-listed variant, the
**later** document element's paired `dd` text is returned. -/
theorem label_resolution_variant_major (pre mid post : List Element)
    (e1 d1 e2 d2 : Element) (l1 l2 : String)
    (_he1 : isDtMatch e1 l2 = true)
    (he1n : isDtMatch e1 l1 = false)
    (he2 : isDtMatch e2 l1 = true)
    (hd1 : d1.tag = "dd") (hd2 : d2.tag = "dd")
    (hpre : ∀ e ∈ pre, isDtMatch e l1 = false)
    (hmid : ∀ e ∈ mid, isDtMatch e l1 = false) :
    get_text_for_labels (pre ++ e1 :: d1 :: (mid ++ e2 :: d2 :: post))
      [l1, l2] = some (pyStrip d2.text) := by
  have hd1n : isDtMatch d1 l1 = false := by
    simp [isDtMatch, hd1]
  unfold get_text_for_labels
  rw [findDt_append _ _ _ hpre]
  simp only [findDt, he1n, hd1n, Bool.false_eq_true, if_false]
  rw [findDt_append _ _ _ hmid]
  simp only [findDt, he2, if_true]
  simp [findNextDd, hd2]

/-- C2 witness: a concrete instance of the amended variant-major
behaviour. -/
theorem label_resolution_variant_major_witness :
    get_text_for_labels
      [⟨"dt", [], "bb"⟩, ⟨"dd", [], " vx "⟩,
       ⟨"dt", [], "aa"⟩, ⟨"dd", [], " vy "⟩] ["aa", "bb"] =
      some (pyStrip " vy ") := by
  exact label_resolution_variant_major [] [] [] ⟨"dt", [], "bb"⟩
    ⟨"dd", [], " vx "⟩ ⟨"dt", [], "aa"⟩ ⟨"dd", [], " vy "⟩ "aa" "bb"
    (by decide) (by decide) (by decide) rfl rfl (by simp) (by simp)

/-- A resort page whose lifts text is `"8 of ten"`: the open part parses,
the total part does not. -/
def liftsPartialDoc : List Element :=
  [⟨"dt", [], "Open lifts"⟩, ⟨"dd", [], "8 of ten"⟩]

/-- The record the code actually produces for `liftsPartialDoc`. -/
def liftsPartialRec : Record :=
  [("lifts_open_count", .int 8), ("status", .str "Open")]

/-- C3 counterexample: on lifts text `"8 of ten"` the claim predicts both
count fields absent; the code leaves `lifts_open_count = 8` in the record
(and consequently derives status `"Open"`). -/
theorem lifts_failure_not_atomic_counterexample :
    parse_resort_page nowRef liftsPartialDoc = .ok liftsPartialRec ∧
    dictGet liftsPartialRec "lifts_open_count" = some (.int 8) ∧
    dictGet liftsPartialRec "lifts_total_count" = none :=
  ⟨rfl, rfl, rfl⟩

/-- C3 amended: when the lifts text contains the "of" word, failure of the
left (open) part leaves both fields absent, but when the left part parses
as an integer and the total part fails, `lifts_open_count` stays set and
only `lifts_total_count` is absent — the failure is not atomic. -/
theorem lifts_open_persists_when_total_fails (v : String) (data : Record)
    (hof : (hasSubstr v "von" || hasSubstr v "of") = true) :
    (parseInt (pyStrip ((splitVonOf v).headD "")) = none →
      liftsParse v data = data) ∧
    (∀ n : Int, parseInt (pyStrip ((splitVonOf v).headD "")) = some n →
      (totalTok (splitVonOf v)).bind parseInt = none →
      liftsParse v data = dictInsert data "lifts_open_count" (Value.int n)) := by
  constructor
  · intro h0
    simp only [liftsParse, hof, if_true]
    unfold liftsOpen
    rw [h0]
  · intro n hn htot
    simp only [liftsParse, hof, if_true]
    unfold liftsOpen
    rw [hn]
    simp only []
    unfold liftsTotal
    rw [htot]

/-- C3 witness: the amended behaviour at `"8 of ten"`. -/
theorem lifts_open_persists_witness :
    liftsParse "8 of ten" [] = dictInsert [] "lifts_open_count" (Value.int 8) :=
  (lifts_open_persists_when_total_fails "8 of ten" [] (by decide)).2 8
    (by decide) (by decide)

/-- C9: the summary keys are present exactly when the page number is
non-zero and a third gallery container exists; with page number zero they
are omitted regardless of the markup; the first two containers always
supply the daily and 12-hour URL/caption pairs. -/
theorem forecast_summary_keys_presence (items : List GalleryItem)
    (page : Nat) :
    ((lookupStr (parse_snow_forecast_images items page) "summary_url").isSome
      ↔ page ≠ 0 ∧ 3 ≤ items.length) ∧
    (page = 0 →
      lookupStr (parse_snow_forecast_images items page) "summary_url" = none ∧
      lookupStr (parse_snow_forecast_images items page) "summary_caption" =
        none) ∧
    (∀ c1 c2 rest, items = c1 :: c2 :: rest →
      lookupStr (parse_snow_forecast_images items page) "daily_forecast_url" =
        some c1.href ∧
      lookupStr (parse_snow_forecast_images items page) "daily_caption" =
        some c1.caption ∧
      lookupStr (parse_snow_forecast_images items page)
        "twelve_hour_forecast_url" = some c2.href ∧
      lookupStr (parse_snow_forecast_images items page)
        "twelve_hour_caption" = some c2.caption) := by
  refine ⟨?_, ?_, ?_⟩
  · rcases items with _ | ⟨c1, _ | ⟨c2, rest⟩⟩
    · simp [parse_snow_forecast_images, lookupStr]
    · simp [parse_snow_forecast_images, lookupStr]
    · by_cases hp : page = 0
      · subst hp
        cases rest <;> simp [parse_snow_forecast_images, lookupStr]
      · cases rest with
        | nil => simp [parse_snow_forecast_images, lookupStr, hp]
        | cons c3 r =>
          simp only [parse_snow_forecast_images, lookupStr, hp]
          simp [hp]
          simp [lookupStr]
  · intro hp
    subst hp
    rcases items with _ | ⟨c1, _ | ⟨c2, rest⟩⟩
    · simp [parse_snow_forecast_images, lookupStr]
    · simp [parse_snow_forecast_images, lookupStr]
    · cases rest <;> simp [parse_snow_forecast_images, lookupStr]
  · intro c1 c2 rest heq
    subst heq
    simp [parse_snow_forecast_images, lookupStr]

/-- C9 witness: the three-container markup of the repository's test, at
page number 1. -/
theorem forecast_summary_keys_witness :
    lookupStr (parse_snow_forecast_images
      [⟨"daily.jpg", "Daily Caption"⟩, ⟨"12h.jpg", "12h Caption"⟩,
       ⟨"summary.jpg", "Summary Caption"⟩] 1) "daily_forecast_url" =
      some "daily.jpg" ∧
    lookupStr (parse_snow_forecast_images
      [⟨"daily.jpg", "Daily Caption"⟩, ⟨"12h.jpg", "12h Caption"⟩,
       ⟨"summary.jpg", "Summary Caption"⟩] 1) "daily_caption" =
      some "Daily Caption" ∧
    lookupStr (parse_snow_forecast_images
      [⟨"daily.jpg", "Daily Caption"⟩, ⟨"12h.jpg", "12h Caption"⟩,
       ⟨"summary.jpg", "Summary Caption"⟩] 1) "twelve_hour_forecast_url" =
      some "12h.jpg" ∧
    lookupStr (parse_snow_forecast_images
      [⟨"daily.jpg", "Daily Caption"⟩, ⟨"12h.jpg", "12h Caption"⟩,
       ⟨"summary.jpg", "Summary Caption"⟩] 1) "twelve_hour_caption" =
      some "12h Caption" :=
  (forecast_summary_keys_presence
    [⟨"daily.jpg", "Daily Caption"⟩, ⟨"12h.jpg", "12h Caption"⟩,
     ⟨"summary.jpg", "Summary Caption"⟩] 1).2.2
    ⟨"daily.jpg", "Daily Caption"⟩ ⟨"12h.jpg", "12h Caption"⟩
    [⟨"summary.jpg", "Summary Caption"⟩] rfl

/-- C4: every successful `parse_resort_page` result carries a status field
that is `"Open"` or `"Closed"`, and it is `"Open"` exactly when
`lifts_open_count` is present with a positive value. -/
theorem status_open_iff_lifts_open_positive (now : DateTime)
    (doc : List Element) (r : Record)
    (h : parse_resort_page now doc = .ok r) :
    (dictGet r "status" = some (.str "Open") ∨
      dictGet r "status" = some (.str "Closed")) ∧
    (dictGet r "status" = some (.str "Open") ↔
      ∃ n : Int, dictGet r "lifts_open_count" = some (.int n) ∧ 0 < n) := by
  obtain ⟨d, hr, hlift, -⟩ := parse_ok_cases now doc r h
  have hA : dictGet d "lifts_open_count" = none ∨
      ∃ n : Int, dictGet d "lifts_open_count" = some (.int n) := by
    rw [hlift]
    exact stageA_open doc
  have hstGet : ∀ st : String, st ≠ "" → st ≠ "-" →
      dictGet ((dictInsert d "status" (.str st)).filter keepEntry) "status" =
        some (.str st) := by
    intro st h1 h2
    exact dictGet_filter_some _ _ _ _ (dictGet_insert_self d "status" (.str st))
      (by simp [keepEntry, h1, h2])
  subst hr
  rcases hA with hA | ⟨n, hA⟩
  · have hpos : liftsOpenPos d = false := by
      unfold liftsOpenPos
      rw [hA]
    have h1 : (if liftsOpenPos d then "Open" else "Closed") = "Closed" := by
      rw [hpos]
      rfl
    rw [h1]
    have hlo : dictGet ((dictInsert d "status"
        (.str "Closed")).filter keepEntry) "lifts_open_count" = none := by
      apply dictGet_filter_none
      rw [dictGet_insert_ne _ _ _ _ (by decide)]
      exact hA
    refine ⟨Or.inr (hstGet "Closed" (by decide) (by decide)), ?_, ?_⟩
    · intro hO
      rw [hstGet "Closed" (by decide) (by decide)] at hO
      simp at hO
    · rintro ⟨m, hm, -⟩
      rw [hlo] at hm
      cases hm
  · have hlg : ∀ st : String,
        dictGet ((dictInsert d "status" (.str st)).filter keepEntry)
          "lifts_open_count" = some (.int n) := by
      intro st
      apply dictGet_filter_some
      · rw [dictGet_insert_ne _ _ _ _ (by decide)]
        exact hA
      · simp [keepEntry]
    by_cases hn : 0 < n
    · have hpos : liftsOpenPos d = true := by
        unfold liftsOpenPos
        rw [hA]
        simp [hn]
      have h1 : (if liftsOpenPos d then "Open" else "Closed") = "Open" := by
        rw [hpos]
        rfl
      rw [h1]
      refine ⟨Or.inl (hstGet "Open" (by decide) (by decide)), ?_, ?_⟩
      · intro _
        exact ⟨n, hlg "Open", hn⟩
      · intro _
        exact hstGet "Open" (by decide) (by decide)
    · have hpos : liftsOpenPos d = false := by
        unfold liftsOpenPos
        rw [hA]
        simp [hn]
      have h1 : (if liftsOpenPos d then "Open" else "Closed") = "Closed" := by
        rw [hpos]
        rfl
      rw [h1]
      refine ⟨Or.inr (hstGet "Closed" (by decide) (by decide)), ?_, ?_⟩
      · intro hO
        rw [hstGet "Closed" (by decide) (by decide)] at hO
        simp at hO
      · rintro ⟨m, hm, hmpos⟩
        rw [hlg "Closed"] at hm
        simp only [Option.some.injEq, Value.int.injEq] at hm
        exact absurd (hm ▸ hmpos) hn

/-- C4 witness: the empty document yields a record whose status is
`"Closed"`. -/
theorem status_open_iff_witness :
    dictGet [("status", Value.str "Closed")] "status" =
      some (Value.str "Open") ∨
    dictGet [("status", Value.str "Closed")] "status" =
      some (Value.str "Closed") :=
  (status_open_iff_lifts_open_positive nowRef []
    [("status", Value.str "Closed")] rfl).1

/-- C7: the claim (and the repository's own test) expects a `new_snow`
field for pages exposing the new-snow widget; `parse_resort_page` never
writes that key for any input document. -/
theorem resort_page_never_yields_new_snow (now : DateTime)
    (doc : List Element) (r : Record)
    (h : parse_resort_page now doc = .ok r) :
    dictGet r "new_snow" = none := by
  obtain ⟨d, hr, -, hpres⟩ := parse_ok_cases now doc r h
  subst hr
  apply dictGet_filter_none
  rw [dictGet_insert_ne _ _ _ _ (by decide)]
  rw [hpres "new_snow" (by decide) (by decide) (by decide) (by decide)
    (by decide) (by decide)]
  exact stageA_get doc _ (by decide) (by decide) (by decide) (by decide)
    (by decide) (by decide) (by decide) (by decide)

/-- C7 witness. -/
theorem resort_page_new_snow_witness :
    dictGet [("status", Value.str "Closed")] "new_snow" = none :=
  resort_page_never_yields_new_snow nowRef [] _ rfl

/-- C8: no entry of a returned record has the empty string or a lone dash
as its value (and no null is ever stored, see `Value`): such entries are
pruned. -/
theorem resort_record_prunes_empty_and_dash (now : DateTime)
    (doc : List Element) (r : Record)
    (h : parse_resort_page now doc = .ok r) :
    ∀ kv ∈ r, kv.2 ≠ Value.str "" ∧ kv.2 ≠ Value.str "-" := by
  obtain ⟨d, hr, -, -⟩ := parse_ok_cases now doc r h
  subst hr
  intro kv hkv
  have hk := List.of_mem_filter hkv
  simp only [keepEntry, Bool.and_eq_true, decide_eq_true_eq, ne_eq] at hk
  exact ⟨hk.1, hk.2⟩

/-- C8 witness. -/
theorem resort_record_prunes_witness :
    Value.str "Closed" ≠ Value.str "" ∧ Value.str "Closed" ≠ Value.str "-" :=
  resort_record_prunes_empty_and_dash nowRef []
    [("status", Value.str "Closed")] rfl ("status", Value.str "Closed")
    (by simp)

/-! ## Date-parser invariants and year inference -/

theorem prevDay_tz (t : DateTime) : (prevDay t).tz = t.tz := by
  unfold prevDay
  repeat' split
  all_goals rfl

theorem replaceHM_shape (base : DateTime) (hh mi : Nat) (d : DateTime)
    (h : replaceHM base hh mi = .ok (some d)) :
    d.tz = base.tz ∧ d.second = 0 ∧ d.microsecond = 0 := by
  unfold replaceHM at h
  split at h
  · simp only [Except.ok.injEq, Option.some.injEq] at h
    subst h
    exact ⟨rfl, rfl, rfl⟩
  · cases h

theorem parseAbsolute_shape (t : String) (now : DateTime) (d : DateTime)
    (h : parseAbsolute t now = some d) :
    d.tz = "Europe/Paris" ∧ d.second = 0 ∧ d.microsecond = 0 := by
  unfold parseAbsolute at h
  repeat' split at h
  all_goals cases h
  all_goals exact ⟨rfl, rfl, rfl⟩

/-- C10: every datetime returned by `parse_bergfex_datetime` — from the
relative-today, relative-yesterday, or absolute branch — carries the fixed
reference timezone and has zero seconds and microseconds. -/
theorem datetime_results_are_aware_and_zeroed (s : String) (now : DateTime)
    (htz : now.tz = "Europe/Paris") (d : DateTime)
    (h : parse_bergfex_datetime s now = .ok (some d)) :
    d.tz = "Europe/Paris" ∧ d.second = 0 ∧ d.microsecond = 0 := by
  unfold parse_bergfex_datetime at h
  split at h
  · cases h
  · simp only [] at h
    cases hT : (if todayStart (pyLower (pyStrip s)) = true then
        searchTime (pyLower (pyStrip s)).data else none) with
    | some hm =>
      rw [hT] at h
      obtain ⟨h1, h2, h3⟩ := replaceHM_shape _ _ _ _ h
      exact ⟨h1.trans htz, h2, h3⟩
    | none =>
      rw [hT] at h
      cases hY : (if yesterdayStart (pyLower (pyStrip s)) = true then
          searchTime (pyLower (pyStrip s)).data else none) with
      | some hm =>
        rw [hY] at h
        obtain ⟨h1, h2, h3⟩ := replaceHM_shape _ _ _ _ h
        rw [prevDay_tz] at h1
        exact ⟨h1.trans htz, h2, h3⟩
      | none =>
        rw [hY] at h
        exact parseAbsolute_shape _ _ _ (Except.ok.inj h)

/-- C10 witness. -/
theorem datetime_results_witness :
    (⟨2025, 11, 5, 14, 40, 0, 0, "Europe/Paris"⟩ : DateTime).tz =
      "Europe/Paris" ∧
    (⟨2025, 11, 5, 14, 40, 0, 0, "Europe/Paris"⟩ : DateTime).second = 0 ∧
    (⟨2025, 11, 5, 14, 40, 0, 0, "Europe/Paris"⟩ : DateTime).microsecond =
      0 :=
  datetime_results_are_aware_and_zeroed "05.11.2025, 14:40" nowRef rfl _ rfl

/-- C6 counterexample: the yearless form with no dot after the month
(`"05.11, 14:40"`) is **not** recognized — the pattern requires a dot
after the month — so the parse yields `None` instead of a datetime. -/
theorem yearless_no_dot_after_month_counterexample :
    parse_bergfex_datetime "05.11, 14:40" nowRef = .ok none ∧
    parse_bergfex_datetime "05.11, 14:40" nowRef ≠
      .ok (some ⟨2025, 11, 5, 14, 40, 0, 0, "Europe/Paris"⟩) :=
  ⟨rfl, fun hc => Option.noConfusion (Except.ok.inj hc)⟩

/-- C6 amended: the absolute pattern requires a literal dot after the
month; `"D.M[.YYYY][,|.] H:MM"` forms with that dot are recognized —
in particular `"05.11.2025, 14:40"` parses to 2025-11-05 14:40 in the
reference timezone, for any clock value — while the dotless yearless form
`"D.M, H:MM"` is rejected. -/
theorem absolute_form_requires_dot_after_month (now : DateTime) :
    parse_bergfex_datetime "05.11.2025, 14:40" now =
      .ok (some ⟨2025, 11, 5, 14, 40, 0, 0, "Europe/Paris"⟩) ∧
    parse_bergfex_datetime "05.11, 14:40" now = .ok none :=
  ⟨rfl, rfl⟩

/-- The two relative-word branches are skipped for non-relative strings,
so the absolute branch decides the result. -/
theorem parse_eq_absolute (s : String) (now : DateTime) (hs : s ≠ "")
    (hrel : relStart (pyLower (pyStrip s)) = false) :
    parse_bergfex_datetime s now =
      .ok (parseAbsolute (pyLower (pyStrip s)) now) := by
  have hto : todayStart (pyLower (pyStrip s)) = false := by
    unfold relStart at hrel
    exact (Bool.or_eq_false_iff.mp hrel).1
  have hye : yesterdayStart (pyLower (pyStrip s)) = false := by
    unfold relStart at hrel
    exact (Bool.or_eq_false_iff.mp hrel).2
  unfold parse_bergfex_datetime
  rw [if_neg hs]
  simp only [hto, hye, Bool.false_eq_true, if_false]

theorem daysInMonth_year_irrel (y y' m : Nat) (hm : m ≠ 2) :
    daysInMonth y m = daysInMonth y' m := by
  unfold daysInMonth
  simp [hm]

/-- A yearless February 29 can never be more than 180 days in the future
of a valid `now` of the same year: Feb 29 is at most 60 days after
January 1, and `now` is not before January 1. -/
theorem feb29_rollback_impossible (now : DateTime) (h mi : Nat)
    (hgt : stampNat now + days180 < stampNat (mkAbs now.year 2 29 h mi))
    (hh : h ≤ 23) (hm : mi ≤ 59) : False := by
  have e1 : daysBeforeMonth now.year 2 = 31 := rfl
  simp only [stampNat, mkAbs, ordinalDay, days180] at hgt
  rw [e1] at hgt
  omega

theorem rollback_valid (now : DateTime) (dd mo h mi : Nat)
    (_hnow : validDT now = true) (hy : 2 ≤ now.year)
    (hvd : validDate now.year mo dd = true)
    (hgt : stampNat now + days180 < stampNat (mkAbs now.year mo dd h mi))
    (hh : h ≤ 23) (hm : mi ≤ 59) :
    validDate (now.year - 1) mo dd = true := by
  have hv := hvd
  unfold validDate at hv ⊢
  simp only [Bool.and_eq_true, decide_eq_true_eq] at hv ⊢
  obtain ⟨⟨⟨⟨⟨hy1, hy9⟩, hm1⟩, hm12⟩, hd1⟩, hdM⟩ := hv
  refine ⟨⟨⟨⟨⟨by omega, by omega⟩, hm1⟩, hm12⟩, hd1⟩, ?_⟩
  by_cases hmo : mo = 2
  · subst hmo
    have hcap : daysInMonth now.year 2 = if isLeap now.year then 29 else 28 :=
      rfl
    have hd28 : dd ≤ 28 := by
      by_contra hcon
      have hd29 : dd = 29 := by
        rw [hcap] at hdM
        split at hdM <;> omega
      subst hd29
      exact feb29_rollback_impossible now h mi hgt hh hm
    have hfloor : daysInMonth (now.year - 1) 2 =
        if isLeap (now.year - 1) then 29 else 28 := rfl
    rw [hfloor]
    split <;> omega
  · rw [daysInMonth_year_irrel (now.year - 1) now.year mo hmo]
    exact hdM

/-- C5: for absolute date strings, a missing year group is filled with
`now`'s year; when that interpretation lies more than 180 days in the
future the year is rolled back by one (and the rollback always produces a
valid date); an explicit year is used verbatim with no rollback. -/
theorem absolute_year_inference_and_rollback (s : String) (now : DateTime)
    (hnow : validDT now = true) (hy2 : 2 ≤ now.year) (hs : s ≠ "")
    (hrel : relStart (pyLower (pyStrip s)) = false) :
    (∀ dd mo hh mi,
      matchAbs (pyLower (pyStrip s)) = some ⟨dd, mo, none, hh, mi⟩ →
      validDate now.year mo dd = true → hh ≤ 23 → mi ≤ 59 →
      (stampNat now + days180 < stampNat (mkAbs now.year mo dd hh mi) →
        parse_bergfex_datetime s now =
          .ok (some (mkAbs (now.year - 1) mo dd hh mi))) ∧
      (¬ stampNat now + days180 < stampNat (mkAbs now.year mo dd hh mi) →
        parse_bergfex_datetime s now =
          .ok (some (mkAbs now.year mo dd hh mi)))) ∧
    (∀ dd mo y hh mi,
      matchAbs (pyLower (pyStrip s)) = some ⟨dd, mo, some y, hh, mi⟩ →
      parse_bergfex_datetime s now =
        .ok (if validDate y mo dd && decide (hh ≤ 23) && decide (mi ≤ 59)
          then some (mkAbs y mo dd hh mi) else none)) := by
  rw [parse_eq_absolute s now hs hrel]
  constructor
  · intro dd mo hh mi hmatch hvd hh23 hmi59
    have hc : (validDate now.year mo dd && decide (hh ≤ 23) &&
        decide (mi ≤ 59)) = true := by
      rw [hvd]
      simp [hh23, hmi59]
    constructor
    · intro hgt
      unfold parseAbsolute
      rw [hmatch]
      simp only []
      rw [if_pos hc, if_pos hgt,
        if_pos (rollback_valid now dd mo hh mi hnow hy2 hvd hgt hh23 hmi59)]
    · intro hle
      unfold parseAbsolute
      rw [hmatch]
      simp only []
      rw [if_pos hc, if_neg hle]
  · intro dd mo y hh mi hmatch
    unfold parseAbsolute
    rw [hmatch]

/-- A clock value just past year-end: 2026-01-05 00:00:00 Europe/Paris. -/
def nowJan : DateTime := ⟨2026, 1, 5, 0, 0, 0, 0, "Europe/Paris"⟩

/-- C5 witness: `"28.12. 10:00"` evaluated at 2026-01-05 is more than 180
days in the future under the current-year reading, so it resolves to
2025-12-28 10:00. -/
theorem absolute_year_rollback_witness :
    parse_bergfex_datetime "28.12. 10:00" nowJan =
      .ok (some (mkAbs (nowJan.year - 1) 12 28 10 0)) :=
  ((absolute_year_inference_and_rollback "28.12. 10:00" nowJan (by decide)
    (by decide) (by decide) (by decide)).1 28 12 10 0 (by decide) (by decide)
    (by decide) (by decide)).1 (by decide)

end Bergfex
